import Mathlib

/-!
Shallow embedding of the libweave ubuntu example network manager
(`network_manager.cc`: `SSLStream`, `NetworkImpl`) and of the generic
stream copier (`streams.cc`: `MemoryStream`, `StreamCopier`).

Conventions of the embedding:
- The cooperative scheduler is modelled by the values a call posts
  (`Posted`): a delay in seconds, whether the callback is bound through
  the weak-pointer factory of the object, and which continuation runs.
- `CHECK(cond)` failures abort the process; they are modelled by the
  `Exec.crash` outcome.
- The OpenSSL primitives are modelled by the integer results and error
  classifications they report; traces of such results stand for the
  successive answers of the primitive.
-/

namespace Weave

/-- Outcome of running a piece of code that may abort the process via a
failed `CHECK` (`crash`) or loop forever on an unresolved primitive
trace (`hang`). -/
inductive Exec (α : Type) where
  | ret (a : α)
  | crash
  | hang
  deriving DecidableEq

/-- Error kinds constructed by the code (`Error::AddTo` domains/codes). -/
inductive WeaveError where
  | socketReadFailed
  | socketWriteFailed
  | tlsInitFailed
  | busy
  deriving DecidableEq

/-- Continuations a `SSLStream` call hands to the task runner. -/
inductive TaskKind where
  | runSuccess (n : Nat)
  | runWriteDone
  | retryRead (buffer size : Nat)
  | retryWrite (buffer size : Nat)
  | runError (e : WeaveError)
  deriving DecidableEq

/-- One `PostDelayedTask` call: delay in seconds, whether the task is
bound via `weak_ptr_factory_.GetWeakPtr()`, and the continuation. -/
structure Posted where
  delay : Nat
  weak : Bool
  task : TaskKind
  deriving DecidableEq

/-- OpenSSL error class `SSL_ERROR_WANT_READ`. -/
def SSL_ERROR_WANT_READ : Nat := 2

/-- OpenSSL error class `SSL_ERROR_WANT_WRITE`. -/
def SSL_ERROR_WANT_WRITE : Nat := 3

/-- `SSLStream::ReadAsync`. `res` is the value returned by `SSL_read`,
`err` the classification `SSL_get_error` reports for it (consulted only
when `res <= 0`, as in the source). The buffer is modelled by its
address. Returns the single task the call posts, the `bool` return
value, and the final content of the `ErrorPtr*` out-parameter. -/
def readAsync (res : Int) (err : Nat) (buffer sizeToRead : Nat)
    (error : Option WeaveError) : Posted × Bool × Option WeaveError :=
  if 0 < res then
    (⟨0, true, TaskKind.runSuccess res.toNat⟩, true, error)
  else if err = SSL_ERROR_WANT_READ ∨ err = SSL_ERROR_WANT_WRITE then
    (⟨1, true, TaskKind.retryRead buffer sizeToRead⟩, true, error)
  else
    (⟨0, true, TaskKind.runError WeaveError.socketReadFailed⟩, true, error)

/-- `SSLStream::WriteAllAsync`. `res` is the value returned by
`SSL_write`, `err` the classification `SSL_get_error` reports for it.
On a partial write the buffer is advanced and the remaining size
reduced before rescheduling, as in the source. -/
def writeAllAsync (res : Int) (err : Nat) (buffer sizeToWrite : Nat)
    (error : Option WeaveError) : Posted × Bool × Option WeaveError :=
  if 0 < res then
    let buffer2 := buffer + res.toNat
    let size2 := sizeToWrite - res.toNat
    if size2 = 0 then
      (⟨0, true, TaskKind.runWriteDone⟩, true, error)
    else
      (⟨1, true, TaskKind.retryWrite buffer2 size2⟩, true, error)
  else if err = SSL_ERROR_WANT_READ ∨ err = SSL_ERROR_WANT_WRITE then
    (⟨1, true, TaskKind.retryWrite buffer sizeToWrite⟩, true, error)
  else
    (⟨0, true, TaskKind.runError WeaveError.socketWriteFailed⟩, true, error)

/-- An async call made on a `SSLStream` instance, with the primitive
results it observes. -/
inductive SSLOp where
  | readOp (res : Int) (err buffer size : Nat)
  | writeOp (res : Int) (err buffer size : Nat)
  deriving DecidableEq

/-- The task an in-flight `SSLStream` operation has posted. -/
def postedOf : SSLOp → Posted
  | .readOp r e b s => (readAsync r e b s none).1
  | .writeOp r e b s => (writeAllAsync r e b s none).1

/-- The weak-pointer binding of one `SSLStream` instance: `valid` is
false once `InvalidateWeakPtrs` has run. -/
structure SSLStreamHandle where
  valid : Bool
  deriving DecidableEq

/-- `SSLStream::CancelPendingAsyncOperations`:
`weak_ptr_factory_.InvalidateWeakPtrs()`. -/
def cancelPendingAsyncOperations (_h : SSLStreamHandle) : SSLStreamHandle :=
  ⟨false⟩

/-- `SSLStream::~SSLStream` calls `CancelPendingAsyncOperations`. -/
def sslStreamDestructor (h : SSLStreamHandle) : SSLStreamHandle :=
  cancelPendingAsyncOperations h

/-- Running one posted task: a task bound through an invalidated weak
pointer is silently dropped by the task runner. -/
def runPosted (valid : Bool) (p : Posted) : Option TaskKind :=
  if p.weak && !valid then none else some p.task

/-- Delivering every pending task of a stream instance: the list of
continuations that actually run. -/
def deliverAll (h : SSLStreamHandle) (ps : List Posted) : List TaskKind :=
  ps.filterMap (runPosted h.valid)

theorem postedOf_weak (op : SSLOp) : (postedOf op).weak = true := by
  cases op <;> simp only [postedOf, readAsync, writeAllAsync] <;>
    repeat first | rfl | split

/-- One answer of `BIO_do_connect` together with the `BIO_should_retry`
classification: `connected` (returned 1), `retryable` (not 1 but
should-retry), `fatalStep` (not 1 and not retryable). -/
inductive ConnectStep where
  | connected
  | retryable
  | fatalStep
  deriving DecidableEq

/-- The connect loop of `SSLStream::Init`:
`while (BIO_do_connect != 1) { CHECK(BIO_should_retry); sleep(1); }`.
A `fatalStep` fails the `CHECK` and aborts the process. -/
def runConnectLoop : List ConnectStep → Exec Unit
  | [] => Exec.hang
  | ConnectStep.connected :: _ => Exec.ret ()
  | ConnectStep.retryable :: rest => runConnectLoop rest
  | ConnectStep.fatalStep :: _ => Exec.crash

/-- The handshake loop of `SSLStream::Init`, over the trace of
`(SSL_do_handshake result, SSL_get_error classification)` pairs.
The source tests `if (res)` (any nonzero result returns true) and then
`if (res != SSL_ERROR_WANT_READ || res != SSL_ERROR_WANT_WRITE) return
false;`. The returned pair is (return value, whether the handshake
actually succeeded, i.e. `SSL_do_handshake` returned 1 so the session
is Established). -/
def handshakeLoop : List (Int × Nat) → Exec (Bool × Bool)
  | [] => Exec.hang
  | (res, err) :: rest =>
    if res ≠ 0 then Exec.ret (true, res == 1)
    else if err ≠ SSL_ERROR_WANT_READ ∨ err ≠ SSL_ERROR_WANT_WRITE then
      Exec.ret (false, false)
    else handshakeLoop rest

/-- `SSLStream::Init(host, port)`: run the connect loop, then the
handshake loop. -/
def sslInit (connectTrace : List ConnectStep)
    (handshakeTrace : List (Int × Nat)) : Exec (Bool × Bool) :=
  match runConnectLoop connectTrace with
  | Exec.ret _ => handshakeLoop handshakeTrace
  | Exec.crash => Exec.crash
  | Exec.hang => Exec.hang

/-- Callback posted by `NetworkImpl::OpenSslSocket`. -/
inductive SocketEvent where
  | successCb
  deriving DecidableEq

/-- `NetworkImpl::OpenSslSocket`: construct a stream, run its blocking
`Init`; on `true` post the success callback with ownership of the
stream; on `false` build a `tls_init_failed` error value without
posting any callback. Returns (posted callbacks, whether an error value
was constructed). -/
def openSslSocket (connectTrace : List ConnectStep)
    (handshakeTrace : List (Int × Nat)) : Exec (List SocketEvent × Bool) :=
  match sslInit connectTrace handshakeTrace with
  | Exec.ret (true, _) => Exec.ret ([SocketEvent.successCb], false)
  | Exec.ret (false, _) => Exec.ret ([], true)
  | Exec.crash => Exec.crash
  | Exec.hang => Exec.hang

/-- Observable effects of one `NetworkImpl::ConnectToService` call:
whether the process aborted on the `CHECK`, whether the Busy error was
stored in the `ErrorPtr*` out-parameter, and whether `TryToConnect`
was invoked. -/
structure ConnectCall where
  crashed : Bool
  busyErrorSet : Bool
  tryInvoked : Bool
  deriving DecidableEq

/-- `NetworkImpl::ConnectToService`: `CHECK(!hostapd_started_)` aborts
when the access point is active, making the subsequent
`if (hostapd_started_) { Busy; return false; }` branch unreachable;
otherwise `TryToConnect` starts the attempt. -/
def connectToService (hostapdStarted : Bool) : ConnectCall :=
  if hostapdStarted then ⟨true, false, false⟩
  else ⟨false, false, true⟩

/-- `NetworkState` of the public network interface. -/
inductive NetworkState where
  | kOffline
  | kConnecting
  | kConnected
  | kFailure
  deriving DecidableEq, BEq

/-- Exit statuses of the three probe commands
(`ping talk.google.com -c 1`, `nmcli dev`, `nmcli dev | grep
connecting`) that `NetworkImpl::GetConnectionState` would consult. -/
structure ProbeEnv where
  pingExit : Int
  nmcliDevExit : Int
  nmcliGrepExit : Int
  deriving DecidableEq

/-- The classification logic written below the early return in
`NetworkImpl::GetConnectionState` (dead code in the source). -/
def classifyProbes (e : ProbeEnv) : NetworkState :=
  if e.pingExit = 0 then NetworkState.kConnected
  else if e.nmcliDevExit ≠ 0 then NetworkState.kFailure
  else if e.nmcliGrepExit = 0 then NetworkState.kConnecting
  else NetworkState.kOffline

/-- `NetworkImpl::GetConnectionState`: the body starts with
`return NetworkState::kOffline;` (commented "Forced soft AP"), so the
probe-based classification below it never runs. -/
def getConnectionState (_e : ProbeEnv) : NetworkState :=
  NetworkState.kOffline

/-- `NetworkImpl::NotifyNetworkChanged`: every registered callback is
run with `online = (GetConnectionState() == NetworkState::kConnected)`.
Listeners are identified by their registration index. -/
def notifyNetworkChanged (e : ProbeEnv) (callbacks : List Nat) :
    List (Nat × Bool) :=
  callbacks.map fun c => (c, getConnectionState e == NetworkState.kConnected)

/-- Environment of a connect attempt: for each second `t`, whether
`waitpid` reports the join process as concluded, and the essid the
`SIOCGIWESSID` ioctl reports. -/
structure ConnEnv where
  concluded : Nat → Bool
  reportedSsid : Nat → String

/-- Totals of one whole connect attempt: how many times the
`on_success` closure was posted and how many times
`NotifyNetworkChanged` was posted. -/
structure TryOutcome where
  successCount : Nat
  notifyCount : Nat
  deriving DecidableEq

/-- The self-rescheduling step `NetworkImpl::TryToConnect`, run to
completion. `fuel` bounds the number of steps (the wrapper
`tryToConnect` supplies enough). Per step, as in the source: if a join
process exists and has concluded, read the essid — on a match post one
notification and one `on_success` and stop, otherwise clear the pid;
if no process exists, spawn one (`ForkCmd` returns a nonzero pid); if
the deadline has passed, post one notification and stop; otherwise
reschedule one second later. -/
def tryToConnectGo (env : ConnEnv) (ssid : String) :
    Nat → Nat → Nat → Nat → Option TryOutcome
  | 0, _, _, _ => none
  | fuel + 1, pid, now, deadline =>
    if pid ≠ 0 ∧ env.concluded now = true ∧ env.reportedSsid now = ssid then
      some ⟨1, 1⟩
    else
      let pid1 := if pid ≠ 0 ∧ env.concluded now = true then 0 else pid
      let pid2 := if pid1 = 0 then 1 else pid1
      if deadline ≤ now then some ⟨0, 1⟩
      else tryToConnectGo env ssid fuel pid2 (now + 1) deadline

/-- A whole connect attempt starting at time `now` with join-process
handle `pid` and the given deadline. -/
def tryToConnect (env : ConnEnv) (ssid : String) (pid now deadline : Nat) :
    Option TryOutcome :=
  tryToConnectGo env ssid (deadline - now + 1) pid now deadline

/-- I/O events of a `StreamCopier` job: each `MemoryStream::Read`
completion (its byte count) and each `MemoryStream::Write` (its byte
count). -/
inductive CopyEvent where
  | read (n : Nat)
  | write (n : Nat)
  deriving DecidableEq

/-- The copy pump `StreamCopier::Copy` / `StreamCopier::OnSuccessRead`
over a `MemoryStream` source. `B` is the scratch buffer size (4096 in
the source), `data` the source bytes, `pos` the source read position,
`done` the accumulated `size_done_`, `dest` the destination contents.
`MemoryStream::Read` returns `min B (remaining)` bytes. A read of
`n > 0` bytes is written to the destination in full, then the pump
recurses; a read of 0 bytes runs `success_callback(size_done_)`.
`fuel` bounds the recursion; `streamCopy` supplies enough. Returns the
event trace, the value passed to the success callback, and the final
destination contents. -/
def copyRunF : Nat → Nat → List Nat → Nat → Nat → List Nat →
    Option (List CopyEvent × Nat × List Nat)
  | 0, _, _, _, _, _ => none
  | fuel + 1, B, data, pos, done, dest =>
    let n := min B (data.length - pos)
    if n = 0 then some ([CopyEvent.read 0], done, dest)
    else
      match copyRunF fuel B data (pos + n) (done + n)
          (dest ++ (data.drop pos).take n) with
      | none => none
      | some (evs, total, d) =>
        some (CopyEvent.read n :: CopyEvent.write n :: evs, total, d)

/-- A whole `StreamCopier` job over a fresh `MemoryStream` holding
`data`, with scratch buffer size `B`. -/
def streamCopy (B : Nat) (data : List Nat) :
    Option (List CopyEvent × Nat × List Nat) :=
  copyRunF (data.length + 1) B data 0 0 []

/-- The successive read sizes of a copy job over `M` remaining bytes
with buffer size `B` (`fuel`-bounded; `chunkSizes` supplies enough). -/
def chunkSizesF : Nat → Nat → Nat → List Nat
  | 0, _, _ => []
  | fuel + 1, B, M =>
    if min B M = 0 then [] else min B M :: chunkSizesF fuel B (M - min B M)

/-- The successive nonzero read sizes of a copy job over `M` bytes. -/
def chunkSizes (B M : Nat) : List Nat :=
  chunkSizesF M B M

/-- The event trace a copy job with the given nonzero read sizes
produces: each read immediately followed by the write of the same
bytes, terminated by the zero-length read. -/
def traceOf : List Nat → List CopyEvent
  | [] => [CopyEvent.read 0]
  | c :: cs => CopyEvent.read c :: CopyEvent.write c :: traceOf cs

/-- Whether an event is a read of a nonzero number of bytes. -/
def isPosRead : CopyEvent → Bool
  | CopyEvent.read n => decide (0 < n)
  | CopyEvent.write _ => false

/-- Number of nonzero reads in a copy-job trace. -/
def countPosReads (t : List CopyEvent) : Nat :=
  (t.filter isPosRead).length

/-! ## Helper lemmas -/

theorem chunkSizesF_zero (f B : Nat) : chunkSizesF f B 0 = [] := by
  cases f with
  | zero => rfl
  | succ f => simp [chunkSizesF]

theorem chunkSizesF_adequate (B : Nat) :
    ∀ f1 f2 M, M ≤ f1 → M ≤ f2 →
      chunkSizesF f1 B M = chunkSizesF f2 B M := by
  intro f1
  induction f1 with
  | zero =>
    intro f2 M h1 _
    have hM : M = 0 := Nat.le_zero.mp h1
    subst hM
    rw [chunkSizesF_zero, chunkSizesF_zero]
  | succ f ih =>
    intro f2 M h1 h2
    cases f2 with
    | zero =>
      have hM : M = 0 := Nat.le_zero.mp h2
      subst hM
      rw [chunkSizesF_zero, chunkSizesF_zero]
    | succ g =>
      by_cases hmin : min B M = 0
      · simp [chunkSizesF, hmin]
      · simp only [chunkSizesF, hmin, if_false]
        have hpos : 0 < min B M := Nat.pos_of_ne_zero hmin
        have hle : min B M ≤ M := Nat.min_le_right B M
        rw [ih g (M - min B M) (by omega) (by omega)]

theorem chunkSizes_unfold (B M : Nat) (hB : 0 < B) (hM : 0 < M) :
    chunkSizes B M = min B M :: chunkSizes B (M - min B M) := by
  have hmin : min B M ≠ 0 := by
    have := Nat.min_eq_zero_iff (m := B) (n := M)
    omega
  cases M with
  | zero => omega
  | succ m =>
    show chunkSizesF (m + 1) B (m + 1) = _
    simp only [chunkSizesF, hmin, if_false]
    have hle : min B (m + 1) ≤ m + 1 := Nat.min_le_right _ _
    have hpos : 0 < min B (m + 1) := Nat.pos_of_ne_zero hmin
    rw [chunkSizesF_adequate B m (m + 1 - min B (m + 1)) (m + 1 - min B (m + 1))
      (by omega) (by omega)]
    rfl

theorem chunkSizes_sum (B : Nat) (hB : 0 < B) :
    ∀ M, (chunkSizes B M).sum = M := by
  intro M
  induction M using Nat.strong_induction_on with
  | _ M ih =>
    cases Nat.eq_zero_or_pos M with
    | inl h0 =>
      subst h0
      rfl
    | inr hM =>
      rw [chunkSizes_unfold B M hB hM]
      have hle : min B M ≤ M := Nat.min_le_right B M
      have hpos : 0 < min B M := lt_min hB hM
      rw [List.sum_cons, ih (M - min B M) (by omega)]
      omega

theorem chunkSizes_length (B : Nat) (hB : 0 < B) :
    ∀ M, (chunkSizes B M).length = (M + B - 1) / B := by
  intro M
  induction M using Nat.strong_induction_on with
  | _ M ih =>
    cases Nat.eq_zero_or_pos M with
    | inl h0 =>
      subst h0
      have h1 : (0 : Nat) + B - 1 = B - 1 := by omega
      have h2 : chunkSizes B 0 = [] := rfl
      rw [h1, h2, Nat.div_eq_of_lt (by omega)]
      rfl
    | inr hM =>
      rw [chunkSizes_unfold B M hB hM]
      have hle : min B M ≤ M := Nat.min_le_right B M
      have hpos : 0 < min B M := lt_min hB hM
      rw [List.length_cons, ih (M - min B M) (by omega)]
      rcases Nat.le_total M B with hMB | hBM
      · have hmin : min B M = M := Nat.min_eq_right hMB
        rw [hmin]
        have e0 : M - M + B - 1 = B - 1 := by omega
        have e1 : M + B - 1 = (M - 1) + B := by omega
        rw [e0, Nat.div_eq_of_lt (by omega), e1, Nat.add_div_right _ hB,
          Nat.div_eq_of_lt (by omega)]
      · have hmin : min B M = B := Nat.min_eq_left hBM
        rw [hmin]
        have e1 : M + B - 1 = (M - B + B - 1) + B := by omega
        rw [e1, Nat.add_div_right _ hB]

theorem chunkSizes_pos (B : Nat) (hB : 0 < B) :
    ∀ M c, c ∈ chunkSizes B M → 0 < c := by
  intro M
  induction M using Nat.strong_induction_on with
  | _ M ih =>
    intro c hc
    cases Nat.eq_zero_or_pos M with
    | inl h0 =>
      subst h0
      simp [chunkSizes, chunkSizesF_zero] at hc
    | inr hM =>
      rw [chunkSizes_unfold B M hB hM] at hc
      have hle : min B M ≤ M := Nat.min_le_right B M
      have hpos : 0 < min B M := lt_min hB hM
      rcases List.mem_cons.mp hc with h | h
      · omega
      · exact ih (M - min B M) (by omega) c h

theorem countPosReads_traceOf :
    ∀ cs : List Nat, (∀ c ∈ cs, 0 < c) →
      countPosReads (traceOf cs) = cs.length := by
  intro cs
  induction cs with
  | nil => intro _; rfl
  | cons c cs ih =>
    intro hpos
    have hc : 0 < c := hpos c (List.mem_cons_self c cs)
    have hrest : ∀ x ∈ cs, 0 < x := fun x hx =>
      hpos x (List.mem_cons_of_mem c hx)
    have h1 : isPosRead (CopyEvent.read c) = true := by
      simp [isPosRead, hc]
    have h2 : isPosRead (CopyEvent.write c) = false := rfl
    have hstep : countPosReads (traceOf (c :: cs)) =
        countPosReads (traceOf cs) + 1 := by
      simp [countPosReads, traceOf, List.filter_cons, h1, h2]
    rw [hstep, ih hrest, List.length_cons]

theorem copyRunF_spec (B : Nat) (hB : 0 < B) (data : List Nat) :
    ∀ fuel pos done dest, pos ≤ data.length → data.length - pos < fuel →
      copyRunF fuel B data pos done dest =
        some (traceOf (chunkSizes B (data.length - pos)),
          done + (data.length - pos), dest ++ data.drop pos) := by
  intro fuel
  induction fuel with
  | zero =>
    intro pos done dest _ hf
    omega
  | succ fuel ih =>
    intro pos done dest hpos hf
    by_cases hn : min B (data.length - pos) = 0
    · have hrem : data.length - pos = 0 := by
        have := Nat.min_eq_zero_iff (m := B) (n := data.length - pos)
        omega
      have hposL : pos = data.length := by omega
      simp only [copyRunF, hn, if_pos]
      rw [hrem]
      have hdrop : data.drop pos = [] := by
        rw [hposL]
        simp
      rw [hdrop, List.append_nil]
      rfl
    · have hmle : min B (data.length - pos) ≤ data.length - pos :=
        Nat.min_le_right _ _
      have hmpos : 0 < min B (data.length - pos) := Nat.pos_of_ne_zero hn
      simp only [copyRunF, hn, if_false]
      rw [ih (pos + min B (data.length - pos))
        (done + min B (data.length - pos))
        (dest ++ (data.drop pos).take (min B (data.length - pos)))
        (by omega) (by omega)]
      have hrem : data.length - (pos + min B (data.length - pos)) =
          (data.length - pos) - min B (data.length - pos) := by omega
      rw [hrem]
      rw [chunkSizes_unfold B (data.length - pos) hB (by omega)]
      have hdest : (dest ++ (data.drop pos).take (min B (data.length - pos)))
          ++ data.drop (pos + min B (data.length - pos)) =
          dest ++ data.drop pos := by
        rw [List.append_assoc]
        congr 1
        rw [← List.drop_drop, List.take_append_drop]
      rw [hdest]
      have hdone : done + min B (data.length - pos) +
          ((data.length - pos) - min B (data.length - pos)) =
          done + (data.length - pos) := by omega
      rw [hdone]
      rfl

theorem tryToConnectGo_never_match (env : ConnEnv) (ssid : String)
    (h : ∀ t, env.reportedSsid t ≠ ssid) :
    ∀ fuel pid now deadline, deadline - now < fuel →
      tryToConnectGo env ssid fuel pid now deadline = some ⟨0, 1⟩ := by
  intro fuel
  induction fuel with
  | zero =>
    intro pid now deadline hf
    omega
  | succ fuel ih =>
    intro pid now deadline hf
    have hcond : ¬ (pid ≠ 0 ∧ env.concluded now = true ∧
        env.reportedSsid now = ssid) := by
      rintro ⟨_, _, hm⟩
      exact h now hm
    simp only [tryToConnectGo, hcond, if_false]
    by_cases hd : deadline ≤ now
    · rw [if_pos hd]
    · rw [if_neg hd]
      exact ih _ (now + 1) deadline (by omega)

/-! ## Claim theorems -/

/-- C1: the claim says a `ConnectToService` call made while the access
point is active returns immediately with the Busy error and starts no
connect attempt. In the source, `CHECK(!hostapd_started_)` aborts the
process first, so the call crashes without setting the Busy error (the
Busy branch is dead code); only the "no connect attempt is started"
half holds. This theorem evaluates the call at the failing input. -/
theorem connectToService_ap_active_crashes :
    (connectToService true).crashed = true ∧
    (connectToService true).busyErrorSet = false ∧
    (connectToService true).tryInvoked = false := by
  decide

/-- C2: once `CancelPendingAsyncOperations` has run on a Secure
Transport Stream handle, no task posted by any in-flight `ReadAsync` or
`WriteAllAsync` operation is ever delivered (every such task is bound
through the weak-pointer factory and is dropped once invalidated);
cancelling is idempotent, and the destructor performs the same
cancellation. -/
theorem cancel_no_further_callbacks (ops : List SSLOp)
    (h : SSLStreamHandle) :
    deliverAll (cancelPendingAsyncOperations h) (ops.map postedOf) = [] ∧
    cancelPendingAsyncOperations (cancelPendingAsyncOperations h) =
      cancelPendingAsyncOperations h ∧
    sslStreamDestructor h = cancelPendingAsyncOperations h := by
  refine ⟨?_, rfl, rfl⟩
  induction ops with
  | nil => rfl
  | cons op rest ih =>
    simp only [List.map_cons, deliverAll, List.filterMap_cons] at *
    rw [show runPosted (cancelPendingAsyncOperations h).valid (postedOf op)
        = none from ?_]
    · exact ih
    · simp [runPosted, cancelPendingAsyncOperations, postedOf_weak op]

/-- C3: the claim says `Init` retries the connect step while retryable,
returns false only on a non-retryable connect error, retries the
handshake on every would-block result, and returns true only once the
session is Established. In the source, a would-block handshake result
(`SSL_do_handshake` returning -1, classified `SSL_ERROR_WANT_READ`)
makes `Init` return true with the session not established (the
`if (res)` test treats any nonzero result as success), and a
non-retryable connect error aborts the process via
`CHECK(BIO_should_retry)` instead of returning false. This theorem
evaluates both failing inputs, and also shows the connect-step retry
part the claim gets right. -/
theorem sslInit_handshake_bug :
    sslInit [ConnectStep.connected] [((-1 : Int), SSL_ERROR_WANT_READ)] =
      Exec.ret (true, false) ∧
    sslInit [ConnectStep.fatalStep] [] = Exec.crash ∧
    runConnectLoop [ConnectStep.retryable, ConnectStep.connected] =
      Exec.ret () := by
  decide

/-- C5: whenever the TLS primitive reports a would-block condition
(`res <= 0` classified `SSL_ERROR_WANT_READ` or
`SSL_ERROR_WANT_WRITE`), both `ReadAsync` and `WriteAllAsync` post the
identical operation — same buffer, same remaining size — after a delay
of 1 second, and post no error continuation. -/
theorem wouldblock_never_error (res : Int) (err buffer size : Nat)
    (e : Option WeaveError) (hres : res ≤ 0)
    (herr : err = SSL_ERROR_WANT_READ ∨ err = SSL_ERROR_WANT_WRITE) :
    (readAsync res err buffer size e).1 =
      ⟨1, true, TaskKind.retryRead buffer size⟩ ∧
    (writeAllAsync res err buffer size e).1 =
      ⟨1, true, TaskKind.retryWrite buffer size⟩ := by
  have hneg : ¬ 0 < res := by omega
  constructor <;> simp [readAsync, writeAllAsync, hneg, herr]

/-- C5 witness: a concrete would-block read and write are rescheduled
unchanged after 1 second. -/
theorem wouldblock_never_error_witness :
    ((-1 : Int) ≤ 0 ∧
      (2 = SSL_ERROR_WANT_READ ∨ 2 = SSL_ERROR_WANT_WRITE)) ∧
    (readAsync (-1) 2 5 9 none).1 = ⟨1, true, TaskKind.retryRead 5 9⟩ ∧
    (writeAllAsync (-1) 2 5 9 none).1 =
      ⟨1, true, TaskKind.retryWrite 5 9⟩ :=
  ⟨⟨by decide, Or.inl rfl⟩,
    wouldblock_never_error (-1) 2 5 9 none (by decide) (Or.inl rfl)⟩

/-- C7: `GetConnectionState` returns `kOffline` on every call: the
forced-Offline early return short-circuits the probe-based
classification, which is dead code — even in an environment where the
probes would classify the state as Connected, the result is Offline. -/
theorem getConnectionState_always_offline :
    (∀ e : ProbeEnv, getConnectionState e = NetworkState.kOffline) ∧
    classifyProbes ⟨0, 0, 1⟩ = NetworkState.kConnected ∧
    getConnectionState ⟨0, 0, 1⟩ = NetworkState.kOffline := by
  exact ⟨fun _ => rfl, by decide, rfl⟩

/-- C9: every connectivity-listener notification delivers `false`:
`NotifyNetworkChanged` computes the reachable flag as
`GetConnectionState() == kConnected`, which never holds because
`GetConnectionState` always returns `kOffline`. -/
theorem notifyNetworkChanged_always_false (e : ProbeEnv)
    (callbacks : List Nat) :
    notifyNetworkChanged e callbacks = callbacks.map fun c => (c, false) := by
  simp [notifyNetworkChanged, getConnectionState]
  intro a _
  decide

/-- C10: `ReadAsync` and `WriteAllAsync` return true on every input and
leave the `ErrorPtr*` out-parameter untouched; outcomes are reported
only through the posted task. -/
theorem async_ops_return_true_no_errout (res : Int) (err buffer size : Nat)
    (e : Option WeaveError) :
    (readAsync res err buffer size e).2 = (true, e) ∧
    (writeAllAsync res err buffer size e).2 = (true, e) := by
  constructor <;> simp only [readAsync, writeAllAsync] <;>
    repeat first | rfl | split

/-- C4: a connect attempt whose target ssid never matches the
OS-reported essid posts `on_success` zero times, and posts exactly one
listener notification, at deadline expiry, after which the attempt
stops rescheduling itself (the run returns instead of recursing; no
error channel exists in `TryToConnect` at all). -/
theorem tryToConnect_never_match (env : ConnEnv) (ssid : String)
    (pid now deadline : Nat) (h : ∀ t, env.reportedSsid t ≠ ssid) :
    tryToConnect env ssid pid now deadline =
      some ⟨0, 1⟩ := by
  exact tryToConnectGo_never_match env ssid h (deadline - now + 1)
    pid now deadline (by omega)

/-- C4 witness: a concrete attempt whose environment always reports a
different essid ends with zero success posts and one notification. -/
theorem tryToConnect_never_match_witness :
    (∀ t, (ConnEnv.mk (fun _ => true) (fun _ => "x")).reportedSsid t ≠
      "home") ∧
    tryToConnect (ConnEnv.mk (fun _ => true) (fun _ => "x")) "home" 0 0 3 =
      some ⟨0, 1⟩ :=
  ⟨fun _ => by show ("x" : String) ≠ "home"; decide,
    tryToConnect_never_match _ "home" 0 0 3
      (fun _ => by show ("x" : String) ≠ "home"; decide)⟩

/-- C6: copying a finite source of `N` bytes with scratch-buffer size
`B > 0` produces the event trace in which each of the `ceil(N/B)`
nonzero reads is immediately followed by the write of exactly the bytes
just read, terminated by the read of 0 bytes; the success callback
receives the accumulated total `N`, and the destination ends up equal
to the source. -/
theorem streamCopier_copy_spec (B : Nat) (data : List Nat) (hB : 0 < B) :
    streamCopy B data =
      some (traceOf (chunkSizes B data.length), data.length, data) ∧
    countPosReads (traceOf (chunkSizes B data.length)) =
      (data.length + B - 1) / B ∧
    (chunkSizes B data.length).sum = data.length := by
  refine ⟨?_, ?_, chunkSizes_sum B hB data.length⟩
  · have hmain := copyRunF_spec B hB data (data.length + 1) 0 0 []
      (by omega) (by omega)
    simpa [streamCopy] using hmain
  · rw [countPosReads_traceOf _ (chunkSizes_pos B hB data.length),
      chunkSizes_length B hB data.length]

/-- C6 witness: a 7-byte source with a 3-byte scratch buffer makes the
3 reads of sizes 3, 3, 1 with interleaved writes and then succeeds
with total 7. -/
theorem streamCopier_copy_spec_witness :
    0 < 3 ∧
    (streamCopy 3 [1, 2, 3, 4, 5, 6, 7] =
      some (traceOf (chunkSizes 3 7), 7, [1, 2, 3, 4, 5, 6, 7]) ∧
    countPosReads (traceOf (chunkSizes 3 7)) = (7 + 3 - 1) / 3 ∧
    (chunkSizes 3 7).sum = 7) :=
  ⟨by decide, streamCopier_copy_spec 3 [1, 2, 3, 4, 5, 6, 7] (by decide)⟩

/-- C8: whenever `Init` on the fresh stream returns, `OpenSslSocket` posts the
success callback (handing over the stream) exactly when `Init` returned
true, and when `Init` returned false it constructs an error value but
posts no callback at all — `error_callback` is never invoked. -/
theorem openSslSocket_failure_drops_error (ct : List ConnectStep)
    (ht : List (Int × Nat)) (rv est : Bool)
    (hinit : sslInit ct ht = Exec.ret (rv, est)) :
    openSslSocket ct ht =
      Exec.ret (if rv then ([SocketEvent.successCb], false)
        else ([], true)) := by
  cases rv <;> simp [openSslSocket, hinit]

/-- C8 witness: a concrete failing `Init` (handshake result 0) leads to
no posted callback with an error value constructed, and a concrete
successful `Init` posts only the success callback. -/
theorem openSslSocket_failure_drops_error_witness :
    (sslInit [ConnectStep.connected] [((0 : Int), 5)] =
        Exec.ret (false, false) ∧
      openSslSocket [ConnectStep.connected] [((0 : Int), 5)] =
        Exec.ret (if false then ([SocketEvent.successCb], false)
          else ([], true))) ∧
    (sslInit [ConnectStep.connected] [((1 : Int), 0)] =
        Exec.ret (true, true) ∧
      openSslSocket [ConnectStep.connected] [((1 : Int), 0)] =
        Exec.ret (if true then ([SocketEvent.successCb], false)
          else ([], true))) :=
  ⟨⟨by decide, openSslSocket_failure_drops_error _ _ false false (by decide)⟩,
    ⟨by decide, openSslSocket_failure_drops_error _ _ true true (by decide)⟩⟩

end Weave
